import Mathlib

/-!
Shallow embedding of `scripts/kill-all.py`, a utility that terminates dev
servers: first from a JSON PID registry (`.dev-instances.json`), falling back
to scanning a fixed port list.

The operating system is modelled as an oracle structure `Env`.  Each external
command invocation (`tasklist`, `taskkill`, the PowerShell port query) can

* succeed with captured stdout (`CmdResult.ok`),
* exit with a nonzero status, which Python surfaces as
  `subprocess.CalledProcessError` (`CmdResult.exitFail`), or
* fail to launch at all, which Python surfaces as an `OSError` such as
  `FileNotFoundError` (`CmdResult.launchFail`).

The distinction matters: `pid_matches_name` catches every exception
(`except Exception`), while `kill_tree` catches only `CalledProcessError` and
`find_pid_on_port` only `(CalledProcessError, ValueError)`, so a launch
failure there propagates.

Execution is modelled in `PyRes`: a trace of observable events (printed
lines, command invocations, the registry-file rewrite) together with an
`Except` result; an `Except.error` models an uncaught Python exception.

The registry read (lines 50-57) is modelled by `Env.readParse`, a
`ReadOutcome`, distinguishing every behaviour class of
`json.load(open(INSTANCE_FILE))` under the `except (json.JSONDecodeError,
IOError)` handler:

* `caughtErr` — `json.JSONDecodeError` or `IOError`: caught, `return False`;
* `uncaughtErr` — an error during the read that the handler does *not*
  cover, e.g. `UnicodeDecodeError` (a `ValueError`) from undecodable bytes:
  it propagates;
* `falsy` — the file parses to a falsy value (`{}`, `[]`, `""`, `0`,
  `null`, `false`): `if not instances: return False`;
* `truthyNonDict lenOk n` — a truthy value that is not a dict.  When
  `len()` applies (list, string: `lenOk = true`) the header line is printed
  with that length `n` and then `instances.items()` raises
  `AttributeError`; otherwise (number, `true`) `len(instances)` itself
  raises `TypeError` before anything is printed.  Both are uncaught;
* `dict entries` — a parsed JSON object, in insertion order.  Each value is
  an `EntryVal`: either `record info` — an object value with optional
  `pid` / `port` / `startedAt` fields, the shape the spec's data model
  gives — or `nonDict` — a non-object value such as `null`, on which
  `info.get("pid")` (line 62) raises an uncaught `AttributeError` before
  that entry prints anything.
-/

namespace KillAll

inductive CmdResult where
  | ok (out : String)
  | exitFail
  | launchFail
deriving DecidableEq

structure Info where
  pid : Option Int
  port : Option Int
  startedAt : Option String
deriving DecidableEq

/-- A value of the parsed registry object: either a record (a JSON object,
read through `info.get`) or any non-object value (e.g. `null`), on which
`info.get("pid")` raises an uncaught `AttributeError`. -/
inductive EntryVal where
  | record (info : Info)
  | nonDict
deriving DecidableEq

/-- Outcome of `json.load(open(INSTANCE_FILE))` for an existing file, as
classified by the `except (json.JSONDecodeError, IOError)` handler and the
subsequent uses of the parsed value (see the module docstring). -/
inductive ReadOutcome where
  | caughtErr
  | uncaughtErr
  | falsy
  | truthyNonDict (lenOk : Bool) (n : Nat)
  | dict (entries : List (String × EntryVal))
deriving DecidableEq

structure Env where
  fileExists : Bool
  readParse : ReadOutcome
  tasklist : Int → CmdResult
  taskkill : Int → CmdResult
  portQuery : Option Int → CmdResult
  writeOk : Bool

inductive Event where
  | printLn (line : String)
  | tasklistQuery (pid : Int)
  | taskkillCall (pid : Int)
  | portQueryCall (port : Option Int)
  | fileWrite (content : String)
deriving DecidableEq

inductive PyError where
  | uncaught
deriving DecidableEq

/-- Result of running a piece of the script: the events it emitted, and
either a value or an uncaught exception. Events emitted before an exception
are kept (they already happened). -/
structure PyRes (α : Type) where
  out : List Event
  res : Except PyError α

def PyRes.bind {α β : Type} (x : PyRes α) (f : α → PyRes β) : PyRes β :=
  match x.res with
  | Except.ok a => ⟨x.out ++ (f a).out, (f a).res⟩
  | Except.error e => ⟨x.out, Except.error e⟩

def PyRes.ret {α : Type} (a : α) : PyRes α := ⟨[], Except.ok a⟩

/-- The double-quote character, as in Python's `strip('"')`. -/
def quoteChar : Char := Char.ofNat 34

/-- The whitespace characters removed by Python's `str.strip()`. -/
def isSpace (c : Char) : Bool :=
  c = ' ' || c = '\t' || c = '\n' || c = '\r' || c.toNat = 11 || c.toNat = 12

/-- Python's `s.strip()`: remove leading and trailing whitespace. -/
def pyStrip (s : String) : String :=
  String.mk (((s.data.dropWhile isSpace).reverse.dropWhile isSpace).reverse)

/-- Test whether `cs` starts with `sub` (helper for the substring test). -/
def headMatch : List Char → List Char → Bool
  | [], _ => true
  | _ :: _, [] => false
  | a :: as, b :: bs => a = b && headMatch as bs

/-- Test whether `sub` occurs contiguously inside `cs`. -/
def occursIn (sub : List Char) : List Char → Bool
  | [] => sub.isEmpty
  | c :: cs => headMatch sub (c :: cs) || occursIn sub cs

/-- Python's substring test `sub in s`. -/
def containsSub (s sub : String) : Bool := occursIn sub.data s.data

/-- Python's `out.split(",")[0]`: the characters before the first comma (the
whole string when there is none). -/
def firstField (cs : List Char) : List Char := cs.takeWhile fun c => ¬(c = ',')

/-- Python's `s.strip('"')`: remove leading and trailing double quotes. -/
def stripQuotesChars (cs : List Char) : List Char :=
  ((cs.dropWhile fun c => c = quoteChar).reverse.dropWhile fun c => c = quoteChar).reverse

/-- Python's `str()` of an `int | None` value, as interpolated by f-strings. -/
def pyStr : Option Int → String
  | none => "None"
  | some n => toString n

/-- Line 25, `image = out.split(",")[0].strip('"').lower()` (for `out`
already stripped).  Lowercasing is ASCII, which covers the image names compared
against ("node", "tsx"). -/
def imageName (out : String) : String :=
  String.mk ((stripQuotesChars (firstField out.data)).map Char.toLower)

def digitVal (c : Char) : Option Nat :=
  if 48 ≤ c.toNat ∧ c.toNat ≤ 57 then some (c.toNat - 48) else none

def digitsToNatAux : List Char → Nat → Option Nat
  | [], acc => some acc
  | c :: cs, acc =>
    match digitVal c with
    | some d => digitsToNatAux cs (acc * 10 + d)
    | none => none

def digitsToNat : List Char → Option Nat
  | [] => none
  | cs => digitsToNatAux cs 0

/-- Python's `int(s)` for an already-stripped `s`, as `none` on `ValueError`:
an optional sign followed by at least one decimal digit.  (Python also
accepts digit-group underscores and non-ASCII digits; those inputs do not
arise from the commands modelled here.) -/
def pyToInt (s : String) : Option Int :=
  match s.data with
  | '-' :: rest => (digitsToNat rest).map fun n => -(n : Int)
  | '+' :: rest => (digitsToNat rest).map fun n => (n : Int)
  | cs => (digitsToNat cs).map fun n => (n : Int)

def killingMsg : String := "Killing Claude Air dev servers..."

def scanMsg : String := "No instance file found, scanning ports..."

def doneMsg : String := "Done."

/-- The content written when resetting the registry: an empty JSON object
followed by a newline. -/
def emptyJson : String := "\x7b\x7d\n"

def headerMsg (n : Nat) : String :=
  "Found instance file with " ++ toString n ++ " server(s):"

def entryMsg (name : String) (pid : Int) (port : Option Int) (started : String) : String :=
  "  " ++ name ++ ": PID " ++ toString pid ++ ", port " ++ pyStr port ++
    ", started " ++ started

def staleMsg (pid : Int) (port : Option Int) : String :=
  "  PID " ++ toString pid ++
    " is not a node process (stale entry), scanning port " ++ pyStr port ++ "..."

def killedMsg (pid : Int) (label : String) : String :=
  "  Killed PID " ++ toString pid ++ " tree (" ++ label ++ ")"

def failedMsg (pid : Int) (label : String) : String :=
  "  Failed to kill PID " ++ toString pid ++ " (" ++ label ++ ")"

def noProcMsg (port : Option Int) : String :=
  "  No process on port " ++ pyStr port

def portLabel (port : Option Int) : String := "port " ++ pyStr port

/-- Line 12, `PORTS = [7331, 7333, 5173]`. -/
def PORTS : List Int := [7331, 7333, 5173]

/-- The boolean `pid_matches_name` computes from the `tasklist` outcome: on
success, a blank or "No tasks" output means no such process; otherwise the
first CSV field (the image name, unquoted and lowercased) is tested for
"node" or "tsx".  Any exception (`except Exception`) yields `False`. -/
def pmnResult (r : CmdResult) : Bool :=
  match r with
  | CmdResult.ok rawOut =>
      let out := pyStrip rawOut
      if (out == "") || containsSub out "No tasks" then false
      else containsSub (imageName out) "node" || containsSub (imageName out) "tsx"
  | CmdResult.exitFail => false
  | CmdResult.launchFail => false

/-- Lines 15-28.  Query `tasklist` for the PID; the classification never
raises, since `except Exception: return False` absorbs every failure.
The `expected` parameter is accepted but unused, as in the source. -/
def pid_matches_name (env : Env) (pid : Int) (expected : String) : PyRes Bool :=
  ⟨[Event.tasklistQuery pid], Except.ok (pmnResult (env.tasklist pid))⟩

/-- Lines 31-42.  `taskkill /F /T /PID pid`; a nonzero exit
(`CalledProcessError`) is caught and reported as a failure line, but an
`OSError` from launching the command is not caught and propagates. -/
def kill_tree (env : Env) (pid : Int) (label : String) : PyRes Bool :=
  match env.taskkill pid with
  | CmdResult.ok _ =>
      ⟨[Event.taskkillCall pid, Event.printLn (killedMsg pid label)], Except.ok true⟩
  | CmdResult.exitFail =>
      ⟨[Event.taskkillCall pid, Event.printLn (failedMsg pid label)], Except.ok false⟩
  | CmdResult.launchFail =>
      ⟨[Event.taskkillCall pid], Except.error PyError.uncaught⟩

/-- The optional PID `find_pid_on_port` extracts from a *non-launch-failure*
command outcome: on success the stripped output is parsed unless it is empty
or `"0"`; an unparsable output (`ValueError` from `int()`) and a nonzero
command exit both fall through to `None`. -/
def findResult (r : CmdResult) : Option Int :=
  match r with
  | CmdResult.ok rawOut =>
      let out := pyStrip rawOut
      if (out == "") || (out == "0") then none
      else
        match pyToInt out with
        | some n => some n
        | none => none
  | _ => none

/-- Lines 86-99.  PowerShell `Get-NetTCPConnection` query.  A nonzero exit
(`CalledProcessError`) and an unparsable output (`ValueError`) are caught,
yielding `None`; a launch failure (`OSError`) is not caught and
propagates. -/
def find_pid_on_port (env : Env) (port : Option Int) : PyRes (Option Int) :=
  match env.portQuery port with
  | CmdResult.launchFail => ⟨[Event.portQueryCall port], Except.error PyError.uncaught⟩
  | r => ⟨[Event.portQueryCall port], Except.ok (findResult r)⟩

/-- Lines 102-108.  `if pid:` is Python truthiness: `None` and `0` both take
the "No process on port" branch. -/
def kill_by_port (env : Env) (port : Option Int) : PyRes Unit :=
  PyRes.bind (find_pid_on_port env port) fun pid =>
    match pid with
    | some p =>
        if p = 0 then ⟨[Event.printLn (noProcMsg port)], Except.ok ()⟩
        else PyRes.bind (kill_tree env p (portLabel port)) fun _ => PyRes.ret ()
    | none => ⟨[Event.printLn (noProcMsg port)], Except.ok ()⟩

/-- Lines 61-74: the `for name, info in instances.items():` loop, written as
structural recursion, threading `killed_any`.  A non-object value crashes at
`info.get("pid")` (line 62), before that entry prints anything; otherwise
`if not pid: continue` skips a missing or falsy (zero) pid. -/
def processEntries (env : Env) (entries : List (String × EntryVal)) (killed_any : Bool) :
    PyRes Bool :=
  match entries with
  | [] => PyRes.ret killed_any
  | (_, EntryVal.nonDict) :: _ => ⟨[], Except.error PyError.uncaught⟩
  | (name, EntryVal.record info) :: rest =>
    match info.pid with
    | none => processEntries env rest killed_any
    | some pid =>
      if pid = 0 then processEntries env rest killed_any
      else
        PyRes.bind ⟨[Event.printLn (entryMsg name pid info.port
            (info.startedAt.getD "?"))], Except.ok ()⟩ fun _ =>
        PyRes.bind (pid_matches_name env pid name) fun matched =>
        if matched then
          PyRes.bind (kill_tree env pid name) fun ok =>
          processEntries env rest (killed_any || ok)
        else
          PyRes.bind ⟨[Event.printLn (staleMsg pid info.port)], Except.ok ()⟩ fun _ =>
          PyRes.bind (kill_by_port env info.port) fun _ =>
          processEntries env rest true

/-- Lines 45-83.  Returns `False` when the file is missing, when the read
fails with a *caught* error, or when the parsed value is falsy (in
particular an empty object); a read error outside the handler propagates; a
truthy non-dict prints the header when `len()` applies and then crashes at
`.items()`.  Otherwise each entry is processed and the file is best-effort
rewritten to an empty object (an `IOError` there is swallowed), returning
`killed_any`. -/
def kill_from_instance_file (env : Env) : PyRes Bool :=
  if env.fileExists = false then PyRes.ret false
  else match env.readParse with
    | ReadOutcome.caughtErr => PyRes.ret false
    | ReadOutcome.uncaughtErr => ⟨[], Except.error PyError.uncaught⟩
    | ReadOutcome.falsy => PyRes.ret false
    | ReadOutcome.truthyNonDict lenOk n =>
        if lenOk then ⟨[Event.printLn (headerMsg n)], Except.error PyError.uncaught⟩
        else ⟨[], Except.error PyError.uncaught⟩
    | ReadOutcome.dict instances =>
      if instances = [] then PyRes.ret false
      else
        PyRes.bind ⟨[Event.printLn (headerMsg instances.length)], Except.ok ()⟩ fun _ =>
        PyRes.bind (processEntries env instances false) fun killed_any =>
        PyRes.bind (if env.writeOk then ⟨[Event.fileWrite emptyJson], Except.ok ()⟩
          else PyRes.ret ()) fun _ =>
        PyRes.ret killed_any

/-- The `for port in PORTS:` loop of `main` (lines 116-117). -/
def scanPorts (env : Env) (ports : List Int) : PyRes Unit :=
  match ports with
  | [] => PyRes.ret ()
  | p :: rest => PyRes.bind (kill_by_port env (some p)) fun _ => scanPorts env rest

/-- Lines 111-119. -/
def main (env : Env) : PyRes Unit :=
  PyRes.bind ⟨[Event.printLn killingMsg], Except.ok ()⟩ fun _ =>
  PyRes.bind (kill_from_instance_file env) fun usedFile =>
  PyRes.bind (if usedFile = false then
      PyRes.bind ⟨[Event.printLn scanMsg], Except.ok ()⟩ fun _ => scanPorts env PORTS
    else PyRes.ret ()) fun _ =>
  ⟨[Event.printLn doneMsg], Except.ok ()⟩

/-- Everything the program prints / does, in order. -/
def mainOutput (env : Env) : List Event := (main env).out

/-- Whether an exception escapes `main` (the interpreter would then exit
nonzero). -/
def mainRaises (env : Env) : Bool :=
  match (main env).res with
  | Except.ok _ => false
  | Except.error _ => true

/-- Process exit status: 0 on normal completion, 1 on an uncaught
exception. -/
def exitCode (env : Env) : Nat := if mainRaises env then 1 else 0

/-- The ports (as passed) of the port-owner queries in a trace, in order. -/
def portQueries (evts : List Event) : List (Option Int) :=
  evts.filterMap fun e =>
    match e with
    | Event.portQueryCall p => some p
    | _ => none

/-- The PIDs handed to `taskkill` in a trace, in order. -/
def taskkillCalls (evts : List Event) : List Int :=
  evts.filterMap fun e =>
    match e with
    | Event.taskkillCall p => some p
    | _ => none

/-- Observable marker of the fixed-port fallback scan: `main` prints the
"scanning ports" line exactly when it enters that branch. -/
def portScanRan (env : Env) : Bool := decide (Event.printLn scanMsg ∈ mainOutput env)

/-- Holds when `x` finishes without an uncaught exception. -/
def completes {α : Type} (x : PyRes α) : Prop := ∃ a, x.res = Except.ok a

/-- A registry object all of whose values are records — the shape the spec's
data model prescribes. -/
def recordEntries (l : List (String × Info)) : List (String × EntryVal) :=
  l.map fun e => (e.1, EntryVal.record e.2)

/-- The registry-read outcomes from which the registry pass cannot raise:
a caught read error, a falsy parse, or an object all of whose values are
records.  An undecodable file, a truthy non-object, or an object holding a
non-object value is excluded (those paths raise uncaught errors). -/
def benignRead : ReadOutcome → Prop
  | ReadOutcome.uncaughtErr => False
  | ReadOutcome.truthyNonDict _ _ => False
  | ReadOutcome.dict entries => ∃ l, entries = recordEntries l
  | _ => True

/- Concrete environments used to instantiate the theorems below. -/

/-- No registry file; every command launches; the port query finds no
listener; kill attempts exit nonzero. -/
def envPortsOnly : Env where
  fileExists := false
  readParse := ReadOutcome.caughtErr
  tasklist := fun _ => CmdResult.exitFail
  taskkill := fun _ => CmdResult.exitFail
  portQuery := fun _ => CmdResult.ok ""
  writeOk := true

/-- No registry file, and the PowerShell port query cannot even be launched
(the `OSError` case of `subprocess`, e.g. a missing binary). -/
def envLaunchFail : Env where
  fileExists := false
  readParse := ReadOutcome.caughtErr
  tasklist := fun _ => CmdResult.exitFail
  taskkill := fun _ => CmdResult.exitFail
  portQuery := fun _ => CmdResult.launchFail
  writeOk := true

def entriesNoPid : List (String × Info) := [("web", ⟨none, some 5173, some "t0"⟩)]

/-- Registry file present and parsed, with one entry lacking a `pid`. -/
def envRegistryNoPid : Env where
  fileExists := true
  readParse := ReadOutcome.dict (recordEntries entriesNoPid)
  tasklist := fun _ => CmdResult.exitFail
  taskkill := fun _ => CmdResult.exitFail
  portQuery := fun _ => CmdResult.ok ""
  writeOk := true

/-- Registry with one live node entry whose kill attempt exits nonzero. -/
def envKillFails : Env where
  fileExists := true
  readParse := ReadOutcome.dict (recordEntries [("web", ⟨some 44, some 5173, none⟩)])
  tasklist := fun _ => CmdResult.ok "\x22node.exe\x22,\x2244\x22,\x22Console\x22"
  taskkill := fun _ => CmdResult.exitFail
  portQuery := fun _ => CmdResult.ok ""
  writeOk := true

/-- Registry with one stale entry: `tasklist` reports chrome, so the port
fallback fires; the port query then reports PID 910. -/
def envStale : Env where
  fileExists := true
  readParse := ReadOutcome.dict (recordEntries [("web", ⟨some 44, some 5173, none⟩)])
  tasklist := fun _ => CmdResult.ok "\x22chrome.exe\x22,\x2244\x22"
  taskkill := fun _ => CmdResult.exitFail
  portQuery := fun _ => CmdResult.ok "910"
  writeOk := false

/-- The port query prints `00`: not caught by the `out != "0"` test, parsed
by `int()` to `0`, and then not truthy in `if pid:`. -/
def envDoubleZero : Env where
  fileExists := false
  readParse := ReadOutcome.caughtErr
  tasklist := fun _ => CmdResult.exitFail
  taskkill := fun _ => CmdResult.exitFail
  portQuery := fun _ => CmdResult.ok "00"
  writeOk := true

/-- The port query prints `0` (PowerShell's `OwningProcess` for no owner). -/
def envZero : Env where
  fileExists := false
  readParse := ReadOutcome.caughtErr
  tasklist := fun _ => CmdResult.exitFail
  taskkill := fun _ => CmdResult.exitFail
  portQuery := fun _ => CmdResult.ok "0"
  writeOk := true

def entriesAllSkipped : List (String × Info) :=
  [("api", ⟨none, some 7331, none⟩), ("web", ⟨some 0, some 5173, some "t1"⟩)]

/-- Registry file present but holding malformed JSON (the parse fails with
`json.JSONDecodeError`). -/
def envMalformed : Env where
  fileExists := true
  readParse := ReadOutcome.caughtErr
  tasklist := fun _ => CmdResult.exitFail
  taskkill := fun _ => CmdResult.exitFail
  portQuery := fun _ => CmdResult.ok ""
  writeOk := true

/-- Registry file whose bytes do not decode — `json.load` raises
`UnicodeDecodeError`, a `ValueError` the handler's
`(json.JSONDecodeError, IOError)` does not cover; every external command is
launchable. -/
def envUndecodable : Env where
  fileExists := true
  readParse := ReadOutcome.uncaughtErr
  tasklist := fun _ => CmdResult.exitFail
  taskkill := fun _ => CmdResult.ok ""
  portQuery := fun _ => CmdResult.ok ""
  writeOk := true

/-- Registry file holding valid JSON that is not an object — e.g. `[1]`:
truthy, `len()` applies, so the header prints and then `.items()` raises an
uncaught `AttributeError`; every external command is launchable. -/
def envNonObject : Env where
  fileExists := true
  readParse := ReadOutcome.truthyNonDict true 1
  tasklist := fun _ => CmdResult.exitFail
  taskkill := fun _ => CmdResult.ok ""
  portQuery := fun _ => CmdResult.ok ""
  writeOk := true

/-- Registry object with a `null` value — `{"web": null}` in the file:
`info.get("pid")` raises an uncaught `AttributeError`; every external
command is launchable. -/
def envNullEntry : Env where
  fileExists := true
  readParse := ReadOutcome.dict [("web", EntryVal.nonDict)]
  tasklist := fun _ => CmdResult.exitFail
  taskkill := fun _ => CmdResult.ok ""
  portQuery := fun _ => CmdResult.ok ""
  writeOk := true

/-- Non-empty registry whose entries all lack a truthy pid. -/
def envAllSkipped : Env where
  fileExists := true
  readParse := ReadOutcome.dict (recordEntries entriesAllSkipped)
  tasklist := fun _ => CmdResult.exitFail
  taskkill := fun _ => CmdResult.exitFail
  portQuery := fun _ => CmdResult.ok ""
  writeOk := true

/-! ## Basic lemmas about the execution monad -/

theorem bind_mk_ok {α β : Type} (d : List Event) (a : α) (f : α → PyRes β) :
    PyRes.bind ⟨d, Except.ok a⟩ f = ⟨d ++ (f a).out, (f a).res⟩ := rfl

theorem bind_mk_error {α β : Type} (d : List Event) (er : PyError) (f : α → PyRes β) :
    PyRes.bind ⟨d, Except.error er⟩ f = ⟨d, Except.error er⟩ := rfl

theorem bind_eq_of_ok {α β : Type} {x : PyRes α} {a : α} (f : α → PyRes β)
    (h : x.res = Except.ok a) :
    PyRes.bind x f = ⟨x.out ++ (f a).out, (f a).res⟩ := by
  unfold PyRes.bind
  rw [h]

theorem bind_eq_of_error {α β : Type} {x : PyRes α} {er : PyError} (f : α → PyRes β)
    (h : x.res = Except.error er) :
    PyRes.bind x f = ⟨x.out, Except.error er⟩ := by
  unfold PyRes.bind
  rw [h]

theorem bind_out_cases {α β : Type} (x : PyRes α) (f : α → PyRes β) :
    (PyRes.bind x f).out = x.out ∨ ∃ a, (PyRes.bind x f).out = x.out ++ (f a).out := by
  cases hx : x.res with
  | ok a => exact Or.inr ⟨a, by rw [bind_eq_of_ok f hx]⟩
  | error er => exact Or.inl (by rw [bind_eq_of_error f hx])

theorem mem_bind_out {α β : Type} {x : PyRes α} {f : α → PyRes β} {e : Event}
    (h : e ∈ (PyRes.bind x f).out) : e ∈ x.out ∨ ∃ a, e ∈ (f a).out := by
  rcases bind_out_cases x f with h2 | ⟨a, h2⟩
  · rw [h2] at h
    exact Or.inl h
  · rw [h2] at h
    rcases List.mem_append.mp h with h3 | h3
    exacts [Or.inl h3, Or.inr ⟨a, h3⟩]

theorem completes_ret {α : Type} (a : α) : completes (PyRes.ret a) := ⟨a, rfl⟩

theorem completes_mk {α : Type} (d : List Event) (a : α) :
    completes (⟨d, Except.ok a⟩ : PyRes α) := ⟨a, rfl⟩

theorem completes_bind {α β : Type} {x : PyRes α} {f : α → PyRes β}
    (hx : completes x) (hf : ∀ a, completes (f a)) : completes (PyRes.bind x f) := by
  obtain ⟨a, ha⟩ := hx
  obtain ⟨b, hb⟩ := hf a
  exact ⟨b, by rw [bind_eq_of_ok f ha]; exact hb⟩

/-! ## Per-function trace and completion lemmas -/

theorem pmn_out (env : Env) (pid : Int) (expected : String) :
    (pid_matches_name env pid expected).out = [Event.tasklistQuery pid] := rfl

theorem pmn_res (env : Env) (pid : Int) (expected : String) :
    (pid_matches_name env pid expected).res = Except.ok (pmnResult (env.tasklist pid)) := rfl

theorem pmn_completes (env : Env) (pid : Int) (expected : String) :
    completes (pid_matches_name env pid expected) := ⟨_, rfl⟩

theorem kill_tree_completes (env : Env) (pid : Int) (label : String)
    (h : ¬ env.taskkill pid = CmdResult.launchFail) :
    completes (kill_tree env pid label) := by
  unfold kill_tree
  cases hk : env.taskkill pid with
  | ok o => exact ⟨true, rfl⟩
  | exitFail => exact ⟨false, rfl⟩
  | launchFail => exact absurd hk h

theorem kill_tree_pq (env : Env) (pid : Int) (label : String) :
    portQueries (kill_tree env pid label).out = [] := by
  unfold kill_tree
  cases env.taskkill pid <;> rfl

theorem find_out (env : Env) (port : Option Int) :
    (find_pid_on_port env port).out = [Event.portQueryCall port] := by
  unfold find_pid_on_port
  cases env.portQuery port <;> rfl

theorem find_res (env : Env) (port : Option Int)
    (h : ¬ env.portQuery port = CmdResult.launchFail) :
    (find_pid_on_port env port).res = Except.ok (findResult (env.portQuery port)) := by
  unfold find_pid_on_port
  cases hq : env.portQuery port with
  | ok o => rfl
  | exitFail => rfl
  | launchFail => exact absurd hq h

theorem find_completes (env : Env) (port : Option Int)
    (h : ¬ env.portQuery port = CmdResult.launchFail) :
    completes (find_pid_on_port env port) :=
  ⟨findResult (env.portQuery port), find_res env port h⟩

theorem kbp_completes (env : Env) (port : Option Int)
    (hq : ¬ env.portQuery port = CmdResult.launchFail)
    (hk : ∀ p, ¬ env.taskkill p = CmdResult.launchFail) :
    completes (kill_by_port env port) := by
  unfold kill_by_port
  refine completes_bind (find_completes env port hq) ?_
  intro a
  cases a with
  | none => exact completes_mk _ _
  | some p =>
      by_cases hp : p = 0
      · simp only [hp, if_pos rfl]
        exact completes_mk _ _
      · simp only [if_neg hp]
        exact completes_bind (kill_tree_completes env p _ (hk p)) fun _ => completes_ret _

theorem portQueries_append (a b : List Event) :
    portQueries (a ++ b) = portQueries a ++ portQueries b := by
  unfold portQueries
  exact List.filterMap_append a b _

theorem kbp_portQueries (env : Env) (port : Option Int) :
    portQueries (kill_by_port env port).out = [port] := by
  unfold kill_by_port
  rcases bind_out_cases (find_pid_on_port env port)
      (fun pid =>
        match pid with
        | some p =>
            if p = 0 then ⟨[Event.printLn (noProcMsg port)], Except.ok ()⟩
            else PyRes.bind (kill_tree env p (portLabel port)) fun _ => PyRes.ret ()
        | none => ⟨[Event.printLn (noProcMsg port)], Except.ok ()⟩) with h | ⟨a, h⟩
  · rw [h, find_out]
    rfl
  · rw [h, find_out, portQueries_append]
    have h0 : portQueries [Event.portQueryCall port] = [port] := rfl
    rw [h0]
    have h1 : portQueries (match a with
        | some p =>
            if p = 0 then (⟨[Event.printLn (noProcMsg port)], Except.ok ()⟩ : PyRes Unit)
            else PyRes.bind (kill_tree env p (portLabel port)) fun _ => PyRes.ret ()
        | none => ⟨[Event.printLn (noProcMsg port)], Except.ok ()⟩).out = [] := by
      cases a with
      | none => rfl
      | some p =>
          by_cases hp : p = 0
          · simp only [hp, if_pos rfl]
            rfl
          · simp only [if_neg hp]
            rcases bind_out_cases (kill_tree env p (portLabel port))
                (fun _ => PyRes.ret ()) with h2 | ⟨b, h2⟩
            · rw [h2]
              exact kill_tree_pq env p (portLabel port)
            · rw [h2, portQueries_append, kill_tree_pq env p (portLabel port)]
              rfl
    rw [h1, List.append_nil]

theorem mk_out {α : Type} (d : List Event) (r : Except PyError α) :
    (PyRes.mk d r).out = d := rfl

theorem mk_res {α : Type} (d : List Event) (r : Except PyError α) :
    (PyRes.mk d r).res = r := rfl

theorem processEntries_completes (env : Env)
    (hk : ∀ p, ¬ env.taskkill p = CmdResult.launchFail)
    (hq : ∀ p, ¬ env.portQuery p = CmdResult.launchFail) :
    ∀ (l : List (String × Info)) (ka : Bool),
      completes (processEntries env (recordEntries l) ka) := by
  intro l
  induction l with
  | nil => intro ka; exact completes_ret _
  | cons hd rest ih =>
      intro ka
      obtain ⟨name, info⟩ := hd
      show completes (processEntries env
        ((name, EntryVal.record info) :: recordEntries rest) ka)
      unfold processEntries
      cases hp : info.pid with
      | none => exact ih ka
      | some pid =>
          by_cases hz : pid = 0
          · simp only [hz, if_pos rfl]
            exact ih ka
          · simp only [if_neg hz]
            refine completes_bind (completes_mk _ _) fun _ => ?_
            refine completes_bind (pmn_completes env pid name) fun matched => ?_
            cases matched with
            | true =>
                simp only [if_pos rfl]
                exact completes_bind (kill_tree_completes env pid name (hk pid))
                  fun ok => ih _
            | false =>
                rw [if_neg Bool.false_ne_true]
                refine completes_bind (completes_mk _ _) fun _ => ?_
                exact completes_bind (kbp_completes env info.port (hq info.port) hk)
                  fun _ => ih _

theorem kfif_completes (env : Env)
    (hk : ∀ p, ¬ env.taskkill p = CmdResult.launchFail)
    (hq : ∀ p, ¬ env.portQuery p = CmdResult.launchFail)
    (hbr : benignRead env.readParse) :
    completes (kill_from_instance_file env) := by
  unfold kill_from_instance_file
  by_cases hf : env.fileExists = false
  · simp only [if_pos hf]
    exact completes_ret _
  · simp only [if_neg hf]
    cases hr : env.readParse with
    | caughtErr => exact completes_ret _
    | uncaughtErr =>
        rw [hr] at hbr
        exact False.elim hbr
    | falsy => exact completes_ret _
    | truthyNonDict lenOk n =>
        rw [hr] at hbr
        exact False.elim hbr
    | dict instances =>
        rw [hr] at hbr
        obtain ⟨l, hl⟩ := hbr
        subst hl
        dsimp only
        by_cases he : recordEntries l = []
        · simp only [if_pos he]
          exact completes_ret _
        · simp only [if_neg he]
          refine completes_bind (completes_mk _ _) fun _ => ?_
          refine completes_bind (processEntries_completes env hk hq l false)
            fun ka => ?_
          refine completes_bind ?_ fun _ => completes_ret _
          by_cases hw : env.writeOk
          · simp only [if_pos hw]
            exact completes_mk _ _
          · simp only [if_neg hw]
            exact completes_ret _

theorem scanPorts_completes (env : Env)
    (hk : ∀ p, ¬ env.taskkill p = CmdResult.launchFail)
    (hq : ∀ p, ¬ env.portQuery p = CmdResult.launchFail) :
    ∀ ps, completes (scanPorts env ps) := by
  intro ps
  induction ps with
  | nil => exact completes_ret _
  | cons p rest ih =>
      unfold scanPorts
      exact completes_bind (kbp_completes env (some p) (hq (some p)) hk) fun _ => ih

theorem scanPorts_pq (env : Env)
    (hk : ∀ p, ¬ env.taskkill p = CmdResult.launchFail)
    (hq : ∀ p, ¬ env.portQuery p = CmdResult.launchFail) :
    ∀ ps, portQueries (scanPorts env ps).out = ps.map some := by
  intro ps
  induction ps with
  | nil => rfl
  | cons p rest ih =>
      unfold scanPorts
      obtain ⟨u, hu⟩ := kbp_completes env (some p) (hq (some p)) hk
      rw [bind_eq_of_ok _ hu, mk_out, portQueries_append, kbp_portQueries, ih,
        List.map_cons]
      rfl

theorem main_completes (env : Env)
    (hk : ∀ p, ¬ env.taskkill p = CmdResult.launchFail)
    (hq : ∀ p, ¬ env.portQuery p = CmdResult.launchFail)
    (hbr : benignRead env.readParse) :
    completes (main env) := by
  unfold main
  refine completes_bind (completes_mk _ _) fun _ => ?_
  refine completes_bind (kfif_completes env hk hq hbr) fun usedFile => ?_
  refine completes_bind ?_ fun _ => completes_mk _ _
  by_cases hb : usedFile = false
  · simp only [if_pos hb]
    exact completes_bind (completes_mk _ _) fun _ => scanPorts_completes env hk hq PORTS
  · simp only [if_neg hb]
    exact completes_ret _

theorem mainRaises_false_of_completes {env : Env} (h : completes (main env)) :
    mainRaises env = false := by
  obtain ⟨a, ha⟩ := h
  unfold mainRaises
  rw [ha]

theorem main_out_noscan (env : Env)
    (hb : (kill_from_instance_file env).res = Except.ok true) :
    mainOutput env =
      Event.printLn killingMsg :: (kill_from_instance_file env).out ++
        [Event.printLn doneMsg] := by
  unfold mainOutput main
  rw [bind_mk_ok, mk_out]
  simp only [bind_eq_of_ok _ hb, mk_out]
  simp [PyRes.ret, bind_mk_ok, mk_out]

theorem main_out_err (env : Env) {er : PyError}
    (hb : (kill_from_instance_file env).res = Except.error er) :
    mainOutput env = Event.printLn killingMsg :: (kill_from_instance_file env).out := by
  unfold mainOutput main
  rw [bind_mk_ok, mk_out]
  simp only [bind_eq_of_error _ hb, mk_out]
  simp

theorem main_out_scan0 (env : Env)
    (hb : (kill_from_instance_file env).res = Except.ok false) :
    ∃ tail, mainOutput env =
      Event.printLn killingMsg :: (kill_from_instance_file env).out ++
        Event.printLn scanMsg :: tail := by
  unfold mainOutput main
  rw [bind_mk_ok, mk_out]
  simp only [bind_eq_of_ok _ hb, mk_out]
  simp only [if_pos rfl, bind_mk_ok, mk_out, mk_res]
  cases hs : (scanPorts env PORTS).res with
  | ok u =>
      refine ⟨(scanPorts env PORTS).out ++ [Event.printLn doneMsg], ?_⟩
      simp [bind_mk_ok, mk_out]
  | error er =>
      refine ⟨(scanPorts env PORTS).out, ?_⟩
      simp [bind_mk_error, mk_out]

theorem main_out_scan (env : Env)
    (hb : (kill_from_instance_file env).res = Except.ok false)
    (hs : completes (scanPorts env PORTS)) :
    mainOutput env =
      Event.printLn killingMsg :: (kill_from_instance_file env).out ++
        Event.printLn scanMsg :: (scanPorts env PORTS).out ++
        [Event.printLn doneMsg] := by
  obtain ⟨u, hu⟩ := hs
  unfold mainOutput main
  rw [bind_mk_ok, mk_out]
  simp only [bind_eq_of_ok _ hb, mk_out]
  simp only [if_pos rfl, bind_mk_ok, mk_out, mk_res]
  rw [hu]
  simp [bind_mk_ok, mk_out]

/-! ## The "scanning ports" marker line is printed only by `main`'s fallback
branch: no component of the registry pass ever prints it. -/

theorem ne_scanMsg_of_head {s : String} {c : Char} (hc : s.data.head? = some c)
    (hne : ¬ c = 'N') : ¬ s = scanMsg := by
  intro h
  have h2 : s.data.head? = scanMsg.data.head? := congrArg (fun u => u.data.head?) h
  rw [hc] at h2
  have h3 : (some c : Option Char) = some 'N' := h2.trans rfl
  exact hne (Option.some.inj h3)

theorem entryMsg_head (name : String) (pid : Int) (port : Option Int) (started : String) :
    (entryMsg name pid port started).data.head? = some ' ' := rfl

theorem staleMsg_head (pid : Int) (port : Option Int) :
    (staleMsg pid port).data.head? = some ' ' := rfl

theorem killedMsg_head (pid : Int) (label : String) :
    (killedMsg pid label).data.head? = some ' ' := rfl

theorem failedMsg_head (pid : Int) (label : String) :
    (failedMsg pid label).data.head? = some ' ' := rfl

theorem noProcMsg_head (port : Option Int) :
    (noProcMsg port).data.head? = some ' ' := rfl

theorem headerMsg_head (n : Nat) : (headerMsg n).data.head? = some 'F' := rfl

theorem kt_no_scan (env : Env) (pid : Int) (label : String) :
    ¬ Event.printLn scanMsg ∈ (kill_tree env pid label).out := by
  unfold kill_tree
  cases env.taskkill pid with
  | ok o =>
      intro hmem
      rcases List.mem_cons.mp hmem with h | h
      · exact Event.noConfusion h
      · rcases List.mem_cons.mp h with h2 | h2
        · exact ne_scanMsg_of_head (killedMsg_head pid label) (by decide)
            (Event.printLn.inj h2).symm
        · exact absurd h2 (List.not_mem_nil _)
  | exitFail =>
      intro hmem
      rcases List.mem_cons.mp hmem with h | h
      · exact Event.noConfusion h
      · rcases List.mem_cons.mp h with h2 | h2
        · exact ne_scanMsg_of_head (failedMsg_head pid label) (by decide)
            (Event.printLn.inj h2).symm
        · exact absurd h2 (List.not_mem_nil _)
  | launchFail =>
      intro hmem
      rcases List.mem_cons.mp hmem with h | h
      · exact Event.noConfusion h
      · exact absurd h (List.not_mem_nil _)

theorem find_no_scan (env : Env) (port : Option Int) :
    ¬ Event.printLn scanMsg ∈ (find_pid_on_port env port).out := by
  rw [find_out]
  intro hmem
  rcases List.mem_cons.mp hmem with h | h
  · exact Event.noConfusion h
  · exact absurd h (List.not_mem_nil _)

theorem noProc_no_scan (port : Option Int) :
    ¬ Event.printLn scanMsg ∈ [Event.printLn (noProcMsg port)] := by
  intro hmem
  rcases List.mem_cons.mp hmem with h | h
  · exact ne_scanMsg_of_head (noProcMsg_head port) (by decide) (Event.printLn.inj h).symm
  · exact absurd h (List.not_mem_nil _)

theorem kbp_no_scan (env : Env) (port : Option Int) :
    ¬ Event.printLn scanMsg ∈ (kill_by_port env port).out := by
  unfold kill_by_port
  intro hmem
  rcases mem_bind_out hmem with h | ⟨a, h⟩
  · exact find_no_scan env port h
  · cases a with
    | none => exact noProc_no_scan port h
    | some p =>
        dsimp only at h
        by_cases hp : p = 0
        · rw [if_pos hp] at h
          exact noProc_no_scan port h
        · rw [if_neg hp] at h
          rcases mem_bind_out h with h2 | ⟨b, h2⟩
          · exact kt_no_scan env p (portLabel port) h2
          · exact absurd h2 (List.not_mem_nil _)

theorem pe_no_scan (env : Env) :
    ∀ (entries : List (String × EntryVal)) (ka : Bool),
      ¬ Event.printLn scanMsg ∈ (processEntries env entries ka).out := by
  intro entries
  induction entries with
  | nil => intro ka h; exact absurd h (List.not_mem_nil _)
  | cons hd rest ih =>
      intro ka hmem
      obtain ⟨name, v⟩ := hd
      cases v with
      | nonDict =>
          unfold processEntries at hmem
          dsimp only at hmem
          exact absurd hmem (List.not_mem_nil _)
      | record info => ?_
      unfold processEntries at hmem
      cases hp : info.pid with
      | none =>
          rw [hp] at hmem
          exact ih ka hmem
      | some pid =>
          rw [hp] at hmem
          dsimp only at hmem
          by_cases hz : pid = 0
          · rw [if_pos hz] at hmem
            exact ih ka hmem
          · rw [if_neg hz] at hmem
            rcases mem_bind_out hmem with h | ⟨_, h⟩
            · rcases List.mem_cons.mp h with h2 | h2
              · exact ne_scanMsg_of_head (entryMsg_head name pid info.port
                  (info.startedAt.getD "?")) (by decide) (Event.printLn.inj h2).symm
              · exact absurd h2 (List.not_mem_nil _)
            · rcases mem_bind_out h with h2 | ⟨matched, h2⟩
              · rw [pmn_out] at h2
                rcases List.mem_cons.mp h2 with h3 | h3
                · exact Event.noConfusion h3
                · exact absurd h3 (List.not_mem_nil _)
              · cases matched with
                | true =>
                    rw [if_pos rfl] at h2
                    rcases mem_bind_out h2 with h3 | ⟨ok, h3⟩
                    · exact kt_no_scan env pid name h3
                    · exact ih _ h3
                | false =>
                    rw [if_neg Bool.false_ne_true] at h2
                    rcases mem_bind_out h2 with h3 | ⟨_, h3⟩
                    · rcases List.mem_cons.mp h3 with h4 | h4
                      · exact ne_scanMsg_of_head (staleMsg_head pid info.port)
                          (by decide) (Event.printLn.inj h4).symm
                      · exact absurd h4 (List.not_mem_nil _)
                    · rcases mem_bind_out h3 with h4 | ⟨_, h4⟩
                      · exact kbp_no_scan env info.port h4
                      · exact ih _ h4

theorem kfif_no_scan (env : Env) :
    ¬ Event.printLn scanMsg ∈ (kill_from_instance_file env).out := by
  unfold kill_from_instance_file
  by_cases hf : env.fileExists = false
  · rw [if_pos hf]
    exact List.not_mem_nil _
  · rw [if_neg hf]
    cases hr : env.readParse with
    | caughtErr => exact List.not_mem_nil _
    | uncaughtErr => exact List.not_mem_nil _
    | falsy => exact List.not_mem_nil _
    | truthyNonDict lenOk n =>
        dsimp only
        by_cases hl : lenOk = true
        · rw [if_pos hl]
          intro hmem
          rcases List.mem_cons.mp hmem with h2 | h2
          · exact ne_scanMsg_of_head (headerMsg_head n) (by decide)
              (Event.printLn.inj h2).symm
          · exact absurd h2 (List.not_mem_nil _)
        · rw [if_neg hl]
          exact List.not_mem_nil _
    | dict instances =>
        dsimp only
        by_cases he : instances = []
        · rw [if_pos he]
          exact List.not_mem_nil _
        · rw [if_neg he]
          intro hmem
          rcases mem_bind_out hmem with h | ⟨_, h⟩
          · rcases List.mem_cons.mp h with h2 | h2
            · exact ne_scanMsg_of_head (headerMsg_head instances.length) (by decide)
                (Event.printLn.inj h2).symm
            · exact absurd h2 (List.not_mem_nil _)
          · rcases mem_bind_out h with h2 | ⟨ka, h2⟩
            · exact pe_no_scan env instances false h2
            · rcases mem_bind_out h2 with h3 | ⟨_, h3⟩
              · by_cases hw : env.writeOk
                · rw [if_pos hw] at h3
                  rcases List.mem_cons.mp h3 with h4 | h4
                  · exact Event.noConfusion h4
                  · exact absurd h4 (List.not_mem_nil _)
                · rw [if_neg hw] at h3
                  exact absurd h3 (List.not_mem_nil _)
              · exact absurd h3 (List.not_mem_nil _)

/-- The fallback marker line appears in `main`'s output exactly when
`kill_from_instance_file` returned `False`. -/
theorem scan_iff (env : Env) :
    Event.printLn scanMsg ∈ mainOutput env ↔
      (kill_from_instance_file env).res = Except.ok false := by
  constructor
  · intro hmem
    cases hres : (kill_from_instance_file env).res with
    | error er =>
        rw [main_out_err env hres] at hmem
        rcases List.mem_cons.mp hmem with h | h
        · exact absurd (Event.printLn.inj h).symm (by decide)
        · exact absurd h (kfif_no_scan env)
    | ok b =>
        cases b with
        | false => rfl
        | true =>
            rw [main_out_noscan env hres] at hmem
            rcases List.mem_cons.mp hmem with h | h
            · exact absurd (Event.printLn.inj h).symm (by decide)
            · rcases List.mem_append.mp h with h2 | h2
              · exact absurd h2 (kfif_no_scan env)
              · rcases List.mem_cons.mp h2 with h3 | h3
                · exact absurd (Event.printLn.inj h3).symm (by decide)
                · exact absurd h3 (List.not_mem_nil _)
  · intro hres
    obtain ⟨tail, ht⟩ := main_out_scan0 env hres
    rw [ht]
    exact List.mem_cons.mpr (Or.inr (List.mem_append.mpr
      (Or.inr (List.mem_cons_self _ _))))

/-! ## Structural lemmas for the registry pass -/

theorem kfif_no_file {env : Env} (h : env.fileExists = false) :
    kill_from_instance_file env = PyRes.ret false := by
  unfold kill_from_instance_file
  rw [if_pos h]

theorem kfif_eq (env : Env) (instances : List (String × EntryVal))
    (hf : env.fileExists = true) (hr : env.readParse = ReadOutcome.dict instances)
    (hne : ¬ instances = []) {b : Bool}
    (hpe : (processEntries env instances false).res = Except.ok b) :
    kill_from_instance_file env =
      ⟨Event.printLn (headerMsg instances.length) ::
        ((processEntries env instances false).out ++
          (if env.writeOk then [Event.fileWrite emptyJson] else [])),
       Except.ok b⟩ := by
  unfold kill_from_instance_file
  rw [hf, if_neg (by simp), hr]
  dsimp only
  rw [if_neg hne, bind_mk_ok]
  rw [bind_eq_of_ok _ hpe]
  by_cases hw : env.writeOk
  · simp [hw, bind_mk_ok, PyRes.ret, mk_out, mk_res]
  · simp [hw, bind_mk_ok, PyRes.ret, mk_out, mk_res]

theorem pe_skip (env : Env) (name : String) (info : Info)
    (rest : List (String × EntryVal)) (ka : Bool)
    (h : info.pid = none ∨ info.pid = some 0) :
    processEntries env ((name, EntryVal.record info) :: rest) ka =
      processEntries env rest ka := by
  rcases h with h | h
  · conv_lhs => rw [processEntries.eq_def]
    dsimp only
    rw [h]
  · conv_lhs => rw [processEntries.eq_def]
    dsimp only
    rw [h]
    dsimp only
    rw [if_pos rfl]

theorem pe_skipAll (env : Env) :
    ∀ l : List (String × Info), (∀ e ∈ l, e.2.pid = none ∨ e.2.pid = some 0) →
      ∀ ka, processEntries env (recordEntries l) ka = PyRes.ret ka := by
  intro l
  induction l with
  | nil => intro _ ka; rfl
  | cons hd rest ih =>
      intro hall ka
      obtain ⟨name, info⟩ := hd
      show processEntries env ((name, EntryVal.record info) :: recordEntries rest) ka =
        PyRes.ret ka
      rw [pe_skip env name info (recordEntries rest) ka (hall _ (List.mem_cons_self _ _))]
      exact ih (fun e he => hall e (List.mem_cons_of_mem _ he)) ka

/-! ## Small trace-projection lemmas -/

theorem last_concat {α : Type} (a : α) : ∀ l : List α, (l ++ [a]).getLast? = some a := by
  intro l
  induction l with
  | nil => rfl
  | cons x rest ih =>
      rw [List.cons_append, List.getLast?_cons, ih]
      cases rest <;> rfl

theorem portQueries_cons_print (s : String) (l : List Event) :
    portQueries (Event.printLn s :: l) = portQueries l := rfl

theorem portQueries_cons_fw (s : String) (l : List Event) :
    portQueries (Event.fileWrite s :: l) = portQueries l := rfl

theorem taskkillCalls_append (a b : List Event) :
    taskkillCalls (a ++ b) = taskkillCalls a ++ taskkillCalls b := by
  unfold taskkillCalls
  exact List.filterMap_append a b _

theorem kt_tkc (env : Env) (p : Int) (label : String) :
    taskkillCalls (kill_tree env p label).out = [p] := by
  unfold kill_tree
  cases env.taskkill p <;> rfl

theorem tkc_pq (port : Option Int) :
    taskkillCalls [Event.portQueryCall port] = [] := rfl

/-- Output of `main` always starts with the "Killing ..." line and, when no
exception escapes, ends with "Done.". -/
theorem main_out_shape (env : Env)
    (hk : ∀ p, ¬ env.taskkill p = CmdResult.launchFail)
    (hq : ∀ p, ¬ env.portQuery p = CmdResult.launchFail)
    (hbr : benignRead env.readParse) :
    ∃ mid,
      mainOutput env = Event.printLn killingMsg :: mid ++ [Event.printLn doneMsg] := by
  obtain ⟨b, hb⟩ := kfif_completes env hk hq hbr
  cases b with
  | true => exact ⟨(kill_from_instance_file env).out, by rw [main_out_noscan env hb]⟩
  | false =>
      refine ⟨(kill_from_instance_file env).out ++
        Event.printLn scanMsg :: (scanPorts env PORTS).out, ?_⟩
      rw [main_out_scan env hb (scanPorts_completes env hk hq PORTS)]
      simp

theorem recordEntries_length (l : List (String × Info)) :
    (recordEntries l).length = l.length := List.length_map _ _

theorem recordEntries_eq_nil {l : List (String × Info)}
    (h : recordEntries l = []) : l = [] := by
  cases l with
  | nil => rfl
  | cons hd tl => exact absurd h (by simp [recordEntries])

/-! ## Claims -/

/-- C1, counterexample: the claim "no exception ever propagates out of main;
the program always runs to completion and exits 0" fails on the code, on
four distinct inputs.  (1) `kill_tree` and `find_pid_on_port` catch only
`CalledProcessError` (and `ValueError`), so an `OSError` launching the
PowerShell port query propagates (`envLaunchFail`).  (2) With every command
launchable, a registry file of undecodable bytes raises
`UnicodeDecodeError`, which the `except (json.JSONDecodeError, IOError)`
handler does not cover (`envUndecodable`).  (3) Valid non-object JSON such
as `[1]` passes the handler and crashes with `AttributeError` at
`instances.items()` (`envNonObject`).  (4) A registry object with a `null`
value, `{"web": null}`, crashes with `AttributeError` at `info.get("pid")`
(`envNullEntry`). -/
theorem C1_counterexample :
    (mainRaises envLaunchFail = true ∧ exitCode envLaunchFail = 1) ∧
    (mainRaises envUndecodable = true ∧ exitCode envUndecodable = 1) ∧
    (mainRaises envNonObject = true ∧ exitCode envNonObject = 1) ∧
    (mainRaises envNullEntry = true ∧ exitCode envNullEntry = 1) :=
  ⟨⟨rfl, rfl⟩, ⟨rfl, rfl⟩, ⟨rfl, rfl⟩, ⟨rfl, rfl⟩⟩

/-- C1, amended: provided (a) every `taskkill` invocation and every
port-owner query can at least be launched (it may succeed or exit nonzero,
but not raise `OSError`), and (b) the registry read, when the file exists,
either fails with a *caught* error (`json.JSONDecodeError` / `IOError`) or
parses to a falsy value or to a JSON object whose values are all objects (the
registry shape of the spec's data model), then no error propagates out of
`main`: the run completes, the exit status is 0, and the output starts with
the "Killing ..." line and ends with "Done.".  Outside those provisos an
exception escapes `main`: an `OSError` launching the kill or port-lookup
command, an undecodable registry file (`UnicodeDecodeError`, a `ValueError`
the handler does not name), or valid JSON that is not an object of records
(`TypeError`/`AttributeError` at `len()`, `.items()` or `info.get`).  The
`tasklist` query and the registry rewrite need no proviso: their failures
are all caught. -/
theorem C1_amended (env : Env)
    (hk : ∀ p, ¬ env.taskkill p = CmdResult.launchFail)
    (hq : ∀ p, ¬ env.portQuery p = CmdResult.launchFail)
    (hbr : benignRead env.readParse) :
    mainRaises env = false ∧ exitCode env = 0 ∧
    (mainOutput env).head? = some (Event.printLn killingMsg) ∧
    (mainOutput env).getLast? = some (Event.printLn doneMsg) := by
  have hr : mainRaises env = false :=
    mainRaises_false_of_completes (main_completes env hk hq hbr)
  obtain ⟨mid, hm⟩ := main_out_shape env hk hq hbr
  refine ⟨hr, by rw [exitCode, hr]; rfl, ?_, ?_⟩
  · rw [hm]
    rfl
  · rw [hm, show Event.printLn killingMsg :: mid ++ [Event.printLn doneMsg] =
      (Event.printLn killingMsg :: mid) ++ [Event.printLn doneMsg] from rfl]
    exact last_concat _ _

theorem C1_amended_witness :
    mainRaises envStale = false ∧ exitCode envStale = 0 ∧
    (mainOutput envStale).head? = some (Event.printLn killingMsg) ∧
    (mainOutput envStale).getLast? = some (Event.printLn doneMsg) :=
  C1_amended envStale (fun _ h => CmdResult.noConfusion h)
    (fun _ h => CmdResult.noConfusion h)
    ⟨[("web", ⟨some 44, some 5173, none⟩)], rfl⟩

/-- C2, counterexample: a registry file that exists, parses, and contains one
entry — but the entry has no pid, so `killed_any` stays `False`,
`kill_from_instance_file` returns `False`, and `main` runs the fixed-port
scan anyway. -/
theorem C2_counterexample :
    envRegistryNoPid.fileExists = true ∧
    envRegistryNoPid.readParse = ReadOutcome.dict (recordEntries entriesNoPid) ∧
    ¬ recordEntries entriesNoPid = [] ∧
    portScanRan envRegistryNoPid = true :=
  ⟨rfl, rfl, by decide, rfl⟩

/-- C2, amended: the fixed-port fallback scan runs exactly when
`kill_from_instance_file` returns `False` — that is, when the registry is
absent, unparsable or empty, **or** when the registry pass counted no kill
(every entry lacked a truthy pid, or every PID-matching kill attempt
failed).  A parsed non-empty registry does not by itself suppress the
fallback scan. -/
theorem C2_amended (env : Env) :
    portScanRan env = true ↔
      (kill_from_instance_file env).res = Except.ok false := by
  rw [portScanRan, decide_eq_true_eq]
  exact scan_iff env

theorem C2_amended_witness : portScanRan envPortsOnly = true :=
  (C2_amended envPortsOnly).mpr rfl

/-- C3: with no registry file (and the external commands launchable), `main`
queries-and-kills exactly the three hardcoded ports 7331, 7333, 5173, in
that order, once each, and no other port. -/
theorem C3_fixed_ports (env : Env) (hf : env.fileExists = false)
    (hk : ∀ p, ¬ env.taskkill p = CmdResult.launchFail)
    (hq : ∀ p, ¬ env.portQuery p = CmdResult.launchFail) :
    portQueries (mainOutput env) = [some 7331, some 7333, some 5173] := by
  have hb : (kill_from_instance_file env).res = Except.ok false := by
    rw [kfif_no_file hf]
    rfl
  rw [main_out_scan env hb (scanPorts_completes env hk hq PORTS), kfif_no_file hf]
  show portQueries (Event.printLn killingMsg :: ([] ++ Event.printLn scanMsg ::
    ((scanPorts env PORTS).out ++ [Event.printLn doneMsg]))) = _
  rw [portQueries_cons_print, List.nil_append, portQueries_cons_print,
    portQueries_append, scanPorts_pq env hk hq PORTS]
  rfl

theorem C3_fixed_ports_witness :
    portQueries (mainOutput envPortsOnly) = [some 7331, some 7333, some 5173] :=
  C3_fixed_ports envPortsOnly rfl (fun _ h => CmdResult.noConfusion h)
    (fun _ h => CmdResult.noConfusion h)

/-- C4: a registry that is missing, malformed with a *caught* read error
(`json.JSONDecodeError` / `IOError`), or parsed to an empty object — or any
other falsy value — makes `kill_from_instance_file` return `False` with no
events at all: no entry processed, nothing printed, no rewrite of the file;
`main` then runs the full port-scan fallback, identically in all cases. -/
theorem C4_unusable_registry (env : Env)
    (h : env.fileExists = false ∨ env.readParse = ReadOutcome.caughtErr ∨
      env.readParse = ReadOutcome.falsy ∨ env.readParse = ReadOutcome.dict []) :
    kill_from_instance_file env = PyRes.ret false ∧ portScanRan env = true := by
  have hk : kill_from_instance_file env = PyRes.ret false := by
    rcases h with h | h | h | h
    · exact kfif_no_file h
    · by_cases hf : env.fileExists = false
      · exact kfif_no_file hf
      · unfold kill_from_instance_file
        rw [if_neg hf, h]
    · by_cases hf : env.fileExists = false
      · exact kfif_no_file hf
      · unfold kill_from_instance_file
        rw [if_neg hf, h]
    · by_cases hf : env.fileExists = false
      · exact kfif_no_file hf
      · unfold kill_from_instance_file
        rw [if_neg hf, h]
        dsimp only
        rw [if_pos rfl]
  refine ⟨hk, ?_⟩
  rw [portScanRan, decide_eq_true_eq]
  exact (scan_iff env).mpr (by rw [hk]; rfl)

theorem C4_unusable_registry_witness :
    kill_from_instance_file envMalformed = PyRes.ret false ∧
    portScanRan envMalformed = true :=
  C4_unusable_registry envMalformed (Or.inr (Or.inl rfl))

/-- C5: a registry entry with a present, truthy pid whose image name does not
match (`pid_matches_name` classifies it `False`) is handled by the stale
branch: after the entry line, the `tasklist` query and the stale-entry line,
the tool runs `kill_by_port` on the entry's *recorded port* (no
`kill_tree` on the entry's pid), and the loop continues with
`killed_any = True` unconditionally — whether or not the port kill found
any process. -/
theorem C5_stale_port_fallback (env : Env) (name : String) (info : Info)
    (rest : List (String × EntryVal)) (ka : Bool) (pid : Int)
    (hpid : info.pid = some pid) (hz : ¬ pid = 0)
    (hstale : pmnResult (env.tasklist pid) = false) :
    processEntries env ((name, EntryVal.record info) :: rest) ka =
      PyRes.bind ⟨[Event.printLn (entryMsg name pid info.port (info.startedAt.getD "?")),
                   Event.tasklistQuery pid,
                   Event.printLn (staleMsg pid info.port)], Except.ok ()⟩ fun _ =>
      PyRes.bind (kill_by_port env info.port) fun _ =>
      processEntries env rest true := by
  conv_lhs => rw [processEntries.eq_def]
  dsimp only
  rw [hpid]
  dsimp only
  rw [if_neg hz]
  simp only [pid_matches_name, hstale, bind_mk_ok, mk_out, mk_res,
    if_neg Bool.false_ne_true]
  simp

theorem C5_stale_port_fallback_witness :
    processEntries envStale [("web", EntryVal.record ⟨some 44, some 5173, none⟩)] false =
      PyRes.bind ⟨[Event.printLn (entryMsg "web" 44 (some 5173) "?"),
                   Event.tasklistQuery 44,
                   Event.printLn (staleMsg 44 (some 5173))], Except.ok ()⟩ fun _ =>
      PyRes.bind (kill_by_port envStale (some 5173)) fun _ =>
      processEntries envStale [] true :=
  C5_stale_port_fallback envStale "web" ⟨some 44, some 5173, none⟩ [] false 44
    rfl (by decide) rfl

/-- C6: whenever the registry exists, parses, and is non-empty — and the
external commands are launchable, so that the pass reaches its end — the
output of `kill_from_instance_file` is the header, then the per-entry
processing, then (exactly when the write succeeds) the rewrite of the file
to the empty object; a failed write is swallowed and the call still returns
normally,
whatever `killed_any` came out of the entries. -/
theorem C6_registry_reset (env : Env) (instances : List (String × Info))
    (hf : env.fileExists = true)
    (hr : env.readParse = ReadOutcome.dict (recordEntries instances))
    (hne : ¬ instances = [])
    (hk : ∀ p, ¬ env.taskkill p = CmdResult.launchFail)
    (hq : ∀ p, ¬ env.portQuery p = CmdResult.launchFail) :
    (kill_from_instance_file env).out =
      Event.printLn (headerMsg instances.length) ::
        ((processEntries env (recordEntries instances) false).out ++
          (if env.writeOk then [Event.fileWrite emptyJson] else [])) ∧
    ∃ b, (kill_from_instance_file env).res = Except.ok b := by
  obtain ⟨b, hb⟩ := processEntries_completes env hk hq instances false
  have hne2 : ¬ recordEntries instances = [] := fun hh => hne (recordEntries_eq_nil hh)
  rw [kfif_eq env (recordEntries instances) hf hr hne2 hb]
  refine ⟨?_, b, rfl⟩
  rw [mk_out, recordEntries_length]

theorem C6_registry_reset_witness :
    (kill_from_instance_file envKillFails).out =
      Event.printLn (headerMsg 1) ::
        ((processEntries envKillFails
            [("web", EntryVal.record ⟨some 44, some 5173, none⟩)] false).out ++
          [Event.fileWrite emptyJson]) ∧
    ∃ b, (kill_from_instance_file envKillFails).res = Except.ok b :=
  C6_registry_reset envKillFails [("web", ⟨some 44, some 5173, none⟩)] rfl rfl
    (by decide) (fun _ h => CmdResult.noConfusion h) (fun _ h => CmdResult.noConfusion h)

/-- C7, counterexample: the claim "kill_by_port attempts a tree kill exactly
when the query returns an owning PID" fails when the query output is `"00"`:
`find_pid_on_port` does return a PID (namely 0, since `"00" != "0"` and
`int("00") = 0`), yet `if pid:` is falsy, so no kill is attempted and the
"No process" line is printed. -/
theorem C7_counterexample :
    (find_pid_on_port envDoubleZero (some 7331)).res = Except.ok (some 0) ∧
    taskkillCalls (kill_by_port envDoubleZero (some 7331)).out = [] ∧
    Event.printLn (noProcMsg (some 7331)) ∈ (kill_by_port envDoubleZero (some 7331)).out :=
  ⟨rfl, rfl, by decide⟩

/-- C7, amended: `kill_by_port` attempts a process-tree kill exactly when
`find_pid_on_port` returns a *nonzero* PID; when it returns no PID — or the
degenerate PID 0 — the "No process on port" line is printed and no kill
happens. -/
theorem C7_amended (env : Env) (port : Option Int) :
    (taskkillCalls (kill_by_port env port).out = [] ↔
      ¬ ∃ p, (find_pid_on_port env port).res = Except.ok (some p) ∧ ¬ p = 0) ∧
    (∀ r, (find_pid_on_port env port).res = Except.ok r → (r = none ∨ r = some 0) →
      Event.printLn (noProcMsg port) ∈ (kill_by_port env port).out ∧
      taskkillCalls (kill_by_port env port).out = []) := by
  unfold kill_by_port
  cases hres : (find_pid_on_port env port).res with
  | error er =>
      rw [bind_eq_of_error _ hres, mk_out, find_out]
      refine ⟨⟨fun _ hex => ?_, fun _ => rfl⟩, fun r hr => ?_⟩
      · obtain ⟨p, hp, _⟩ := hex
        exact Except.noConfusion hp
      · exact fun _ => absurd hr (fun hh => Except.noConfusion hh)
  | ok a =>
      rw [bind_eq_of_ok _ hres, mk_out, find_out]
      cases a with
      | none =>
          dsimp only
          refine ⟨⟨fun _ hex => ?_, fun _ => rfl⟩, fun r hr hcase => ?_⟩
          · obtain ⟨p, hp, _⟩ := hex
            exact Option.noConfusion (Except.ok.inj hp)
          · refine ⟨?_, rfl⟩
            exact List.mem_append.mpr (Or.inr (List.mem_cons_self _ _))
      | some p =>
          dsimp only
          by_cases hp : p = 0
          · rw [if_pos hp]
            refine ⟨⟨fun _ hex => ?_, fun _ => rfl⟩, fun r hr hcase => ?_⟩
            · obtain ⟨q, hq, hqz⟩ := hex
              exact hqz ((Option.some.inj (Except.ok.inj hq)).symm.trans hp)
            · refine ⟨?_, rfl⟩
              exact List.mem_append.mpr (Or.inr (List.mem_cons_self _ _))
          · rw [if_neg hp]
            constructor
            · constructor
              · intro htk
                rcases bind_out_cases (kill_tree env p (portLabel port))
                    (fun _ => PyRes.ret ()) with h2 | ⟨b, h2⟩
                · rw [h2, taskkillCalls_append, tkc_pq, kt_tkc] at htk
                  simp at htk
                · rw [h2, taskkillCalls_append, tkc_pq, taskkillCalls_append,
                    kt_tkc] at htk
                  have hretr : taskkillCalls (PyRes.ret ()).out = [] := rfl
                  rw [hretr] at htk
                  simp at htk
              · intro hno
                exact absurd ⟨p, rfl, hp⟩ hno
            · intro r hr hcase
              have hr2 : (some p : Option Int) = r := Except.ok.inj hr
              rcases hcase with hc | hc
              · rw [hc] at hr2
                exact absurd hr2 (fun hh => Option.noConfusion hh)
              · rw [hc] at hr2
                exact absurd (Option.some.inj hr2) hp

theorem C7_amended_witness :
    Event.printLn (noProcMsg (some 5173)) ∈ (kill_by_port envZero (some 5173)).out ∧
    taskkillCalls (kill_by_port envZero (some 5173)).out = [] :=
  (C7_amended envZero (some 5173)).2 none rfl (Or.inl rfl)

/-- C8: `pid_matches_name` classifies a PID as the expected runtime iff the
`tasklist` query succeeds, its stripped output is non-blank and does not
contain "No tasks", and the first CSV field — unquoted and lowercased —
contains "node" or "tsx"; in every other situation (including any command
failure) the classification is `False`, and the function never raises. -/
theorem C8_pid_classification (env : Env) (pid : Int) (expected : String) :
    ((pid_matches_name env pid expected).res = Except.ok true ↔
      ∃ rawOut, env.tasklist pid = CmdResult.ok rawOut ∧
        ¬ pyStrip rawOut = "" ∧
        ¬ containsSub (pyStrip rawOut) "No tasks" = true ∧
        (containsSub (imageName (pyStrip rawOut)) "node" = true ∨
         containsSub (imageName (pyStrip rawOut)) "tsx" = true)) ∧
    ∃ b, (pid_matches_name env pid expected).res = Except.ok b := by
  refine ⟨?_, pmnResult (env.tasklist pid), rfl⟩
  rw [pmn_res]
  constructor
  · intro h
    have hb : pmnResult (env.tasklist pid) = true := Except.ok.inj h
    cases ht : env.tasklist pid with
    | ok rawOut =>
        rw [ht] at hb
        unfold pmnResult at hb
        dsimp only at hb
        by_cases hc : ((pyStrip rawOut == "") ||
            containsSub (pyStrip rawOut) "No tasks") = true
        · rw [if_pos hc] at hb
          exact absurd hb Bool.false_ne_true
        · rw [if_neg hc] at hb
          simp only [Bool.or_eq_true, not_or, beq_iff_eq] at hc
          exact ⟨rawOut, rfl, hc.1, hc.2, Bool.or_eq_true _ _ |>.mp hb⟩
    | exitFail =>
        rw [ht] at hb
        exact absurd hb Bool.false_ne_true
    | launchFail =>
        rw [ht] at hb
        exact absurd hb Bool.false_ne_true
  · rintro ⟨rawOut, hok, h1, h2, h3⟩
    rw [hok]
    suffices hfr : pmnResult (CmdResult.ok rawOut) = true by rw [hfr]
    unfold pmnResult
    dsimp only
    rw [if_neg (by simp [Bool.or_eq_true, beq_iff_eq, h1, h2])]
    rcases h3 with h3 | h3 <;> simp [h3]

theorem C8_pid_classification_witness :
    (pid_matches_name envKillFails 44 "web").res = Except.ok true :=
  (C8_pid_classification envKillFails 44 "web").1.mpr
    ⟨"\x22node.exe\x22,\x2244\x22,\x22Console\x22", rfl, by decide, by decide,
      Or.inl (by decide)⟩

/-- C9: an entry whose record lacks a "pid" key, or whose pid is the falsy 0,
is skipped outright — no print, no `tasklist` query, no kill of any kind, no
effect on `killed_any`; consequently a non-empty registry made only of such
entries still ends with `killed_any = False`, so `main` resets the file
(when the write succeeds) and then runs the full fixed-port scan. -/
theorem C9_skipped_entries (env : Env) :
    (∀ (name : String) (info : Info) (rest : List (String × EntryVal)) (ka : Bool),
      (info.pid = none ∨ info.pid = some 0) →
      processEntries env ((name, EntryVal.record info) :: rest) ka =
        processEntries env rest ka) ∧
    (∀ instances : List (String × Info), env.fileExists = true →
      env.readParse = ReadOutcome.dict (recordEntries instances) →
      ¬ instances = [] →
      (∀ e ∈ instances, e.2.pid = none ∨ e.2.pid = some 0) →
      (∀ p, ¬ env.taskkill p = CmdResult.launchFail) →
      (∀ p, ¬ env.portQuery p = CmdResult.launchFail) →
      mainOutput env =
        Event.printLn killingMsg :: Event.printLn (headerMsg instances.length) ::
          ((if env.writeOk then [Event.fileWrite emptyJson] else []) ++
            Event.printLn scanMsg :: ((scanPorts env PORTS).out ++
            [Event.printLn doneMsg])) ∧
      portQueries (mainOutput env) = [some 7331, some 7333, some 5173]) := by
  constructor
  · exact fun name info rest ka h => pe_skip env name info rest ka h
  · intro instances hf hr hne hall hk hq
    have hpe : processEntries env (recordEntries instances) false = PyRes.ret false :=
      pe_skipAll env instances hall false
    have hne2 : ¬ recordEntries instances = [] :=
      fun hh => hne (recordEntries_eq_nil hh)
    have hkf := kfif_eq env (recordEntries instances) hf hr hne2
      (b := false) (by rw [hpe]; rfl)
    rw [hpe, recordEntries_length] at hkf
    have hb : (kill_from_instance_file env).res = Except.ok false := by
      rw [hkf]
    have hmain := main_out_scan env hb (scanPorts_completes env hk hq PORTS)
    rw [hkf] at hmain
    constructor
    · rw [hmain]
      simp [PyRes.ret]
    · rw [hmain]
      simp only [mk_out, PyRes.ret, List.nil_append, portQueries_cons_print]
      by_cases hw : env.writeOk
      · rw [if_pos hw]
        show portQueries (Event.printLn (headerMsg instances.length) ::
          ([Event.fileWrite emptyJson] ++ Event.printLn scanMsg ::
            ((scanPorts env PORTS).out ++ [Event.printLn doneMsg]))) = _
        rw [portQueries_cons_print, List.singleton_append, portQueries_cons_fw,
          portQueries_cons_print, portQueries_append, scanPorts_pq env hk hq PORTS]
        rfl
      · rw [if_neg hw]
        show portQueries (Event.printLn (headerMsg instances.length) ::
          ([] ++ Event.printLn scanMsg ::
            ((scanPorts env PORTS).out ++ [Event.printLn doneMsg]))) = _
        rw [portQueries_cons_print, List.nil_append, portQueries_cons_print,
          portQueries_append, scanPorts_pq env hk hq PORTS]
        rfl

theorem C9_skipped_entries_witness :
    mainOutput envAllSkipped =
      Event.printLn killingMsg :: Event.printLn (headerMsg 2) ::
        ([Event.fileWrite emptyJson] ++
          Event.printLn scanMsg :: ((scanPorts envAllSkipped PORTS).out ++
          [Event.printLn doneMsg])) ∧
    portQueries (mainOutput envAllSkipped) = [some 7331, some 7333, some 5173] :=
  (C9_skipped_entries envAllSkipped).2 entriesAllSkipped rfl rfl (by decide)
    (by decide) (fun _ h => CmdResult.noConfusion h) (fun _ h => CmdResult.noConfusion h)

/-- C10: `find_pid_on_port` yields `None` whenever the port query's stripped
output is empty or the string "0"; and no PID 0 is ever passed to the
tree-kill via the port-based path, whatever the query returns. -/
theorem C10_no_pid_zero_kill (env : Env) (port : Option Int) :
    (∀ rawOut, env.portQuery port = CmdResult.ok rawOut →
      (pyStrip rawOut = "" ∨ pyStrip rawOut = "0") →
      (find_pid_on_port env port).res = Except.ok none) ∧
    (∀ p, p ∈ taskkillCalls (kill_by_port env port).out → ¬ p = 0) := by
  constructor
  · intro rawOut hok hcase
    have hnl : ¬ env.portQuery port = CmdResult.launchFail := by
      rw [hok]
      exact fun hh => CmdResult.noConfusion hh
    rw [find_res env port hnl, hok]
    suffices hfr : findResult (CmdResult.ok rawOut) = none by rw [hfr]
    unfold findResult
    dsimp only
    rw [if_pos (by rcases hcase with hc | hc <;> simp [hc])]
  · intro p hp
    unfold kill_by_port at hp
    cases hres : (find_pid_on_port env port).res with
    | error er =>
        rw [bind_eq_of_error _ hres, mk_out, find_out, tkc_pq] at hp
        exact absurd hp (List.not_mem_nil _)
    | ok a =>
        rw [bind_eq_of_ok _ hres, mk_out, find_out, taskkillCalls_append,
          tkc_pq, List.nil_append] at hp
        cases a with
        | none =>
            rw [show taskkillCalls [Event.printLn (noProcMsg port)] = [] from rfl] at hp
            exact absurd hp (List.not_mem_nil _)
        | some q =>
            dsimp only at hp
            by_cases hq : q = 0
            · rw [if_pos hq, mk_out,
                show taskkillCalls [Event.printLn (noProcMsg port)] = [] from rfl] at hp
              exact absurd hp (List.not_mem_nil _)
            · rw [if_neg hq] at hp
              rcases bind_out_cases (kill_tree env q (portLabel port))
                  (fun _ => PyRes.ret ()) with h2 | ⟨b, h2⟩
              · rw [h2, kt_tkc] at hp
                rw [List.mem_singleton.mp hp]
                exact hq
              · rw [h2, taskkillCalls_append, kt_tkc,
                  show taskkillCalls (PyRes.ret ()).out = [] from rfl,
                  List.append_nil] at hp
                rw [List.mem_singleton.mp hp]
                exact hq

theorem C10_no_pid_zero_kill_witness :
    (find_pid_on_port envZero (some 5173)).res = Except.ok none :=
  (C10_no_pid_zero_kill envZero (some 5173)).1 "0" rfl (Or.inr rfl)

end KillAll
